import Mathlib

/-!
Verification of the Timeline Generation Engine (`app/timeline/core.py`) of the
SmartPlanner repository, against its natural-language specification.

Embedding conventions:
* Timestamps (`datetime`) are minutes since an arbitrary epoch, as exact
  rationals; a calendar day is 1440 minutes, and `datetime.date()` is the
  floor of the timestamp divided by 1440.
* Python floats are modelled as exact rationals.
* ISO-8601 string fields are embedded as their parse results: a field that
  `dateutil.parser.isoparse` accepts is carried as the parsed timestamp, a
  field it rejects is carried as a marker (`DueDate.malformed`, `none`).
* Exceptions escaping `generate_timeline` are modelled with `Except`.
-/

namespace SmartPlanner

/-- `datetime.date()`: the calendar-day index of a timestamp in minutes. -/
def dateOf (t : ℚ) : ℤ := ⌊t / 1440⌋

/-- Python 3 `round` to an integer: banker's rounding (round half to even). -/
def roundHalfEven (x : ℚ) : ℤ :=
  let n := ⌊x⌋
  let r := x - n
  if r < 1 / 2 then n
  else if 1 / 2 < r then n + 1
  else if 2 ∣ n then n else n + 1

/-- Python 3 `round(x, ndigits)` on our exact-rational model of floats. -/
def pyRound (x : ℚ) (ndigits : ℕ) : ℚ :=
  let p : ℚ := (10 : ℚ) ^ ndigits
  (roundHalfEven (x * p) : ℚ) / p

/-- The `due_date` string field of a `Task` (`app/models.py`), embedded by its
parse status: `absent` is `None` or the empty string (both falsy in Python),
`malformed` is a non-empty string `dateutil.parser.isoparse` raises on, and
`valid t` is a string parsing to timestamp `t`. -/
inductive DueDate
  | absent
  | malformed
  | valid (t : ℚ)
deriving DecidableEq, Repr

/-- `Task` from `app/models.py`, restricted to the fields the timeline engine
reads (`task_type`, `notes`, `user_id`, `created_at` are never consulted). -/
structure Task where
  id : Option String
  title : String
  due_date : DueDate
  weight : Option ℚ
  effort_hours : Option ℚ
  completed : Bool
deriving DecidableEq, Repr

/-- `BusyBlock` from `app/models.py`: `start`/`end` are ISO strings, embedded
by parse result (`none` = unparseable). The Python field `end` is a Lean
keyword and is embedded as `endT`. -/
structure BusyBlock where
  title : String
  start : Option ℚ
  endT : Option ℚ
deriving DecidableEq, Repr

/-- `ScheduleBlock` from `app/models.py`. The engine stores `start`/`end` as
`isoformat()` strings of the slot timestamps; engine-created strings always
re-parse to the same timestamps, so we embed the timestamps directly. -/
structure ScheduleBlock where
  task_id : Option String
  task_title : String
  start : ℚ
  endT : ℚ
  duration_hours : ℚ
  reason : String
deriving DecidableEq, Repr

/-- `UserPreferences` from `app/models.py`, in the form `TimelineEngine.__init__`
produces: the `"HH:MM"` strings `preferred_start_time`/`preferred_end_time` are
already split and `int`-parsed into hour/minute fields (defaults `09:00` and
`22:00`).  `break_duration_minutes` and `min_study_block_minutes` are Python
ints with no validation anywhere, so they are embedded as unrestricted `ℤ`. -/
structure UserPreferences where
  max_hours_per_day : ℚ
  start_hour : ℕ
  start_minute : ℕ
  end_hour : ℕ
  end_minute : ℕ
  break_duration_minutes : ℤ
  min_study_block_minutes : ℤ
deriving DecidableEq, Repr

/-- Per-day aggregate statistics (`TimelineEngine._calculate_stats`). A day is
identified by its calendar-day index (`dateOf`). -/
structure Stats where
  total_days_scheduled : ℕ
  avg_hours_per_day : ℚ
  busiest_day : Option ℤ
  busiest_day_hours : ℚ
deriving DecidableEq, Repr

/-- The metadata dict built by `TimelineEngine.generate_timeline`.
`stats = none` models the empty dict `{}` returned for an empty schedule, and
the early "no schedulable tasks" return (whose dict simply lacks the other
keys) is modelled with empty lists. `tasks_partial` entries are
(title, remaining-hours) pairs. -/
structure Metadata where
  total_hours : ℚ
  tasks_scheduled : ℕ
  tasks_partial : List (String × ℚ)
  tasks_unscheduled : List String
  warnings : List String
  stats : Option Stats
deriving DecidableEq, Repr

/-- `task.id or task.title` (Python truthiness: `None` and `""` fall through). -/
def taskKey (t : Task) : String :=
  match t.id with
  | some s => if s = "" then t.title else s
  | none => t.title

/-- A Python dict update `d[k] = v` on an insertion-ordered assoc list. -/
def dictSet (d : List (String × ℚ)) (k : String) (v : ℚ) : List (String × ℚ) :=
  match d with
  | [] => [(k, v)]
  | (k0, v0) :: rest => if k0 = k then (k, v) :: rest else (k0, v0) :: dictSet rest k v

/-- Python `d.get(k, dflt)`. -/
def dictGet (d : List (String × ℚ)) (k : String) (dflt : ℚ) : ℚ :=
  match d with
  | [] => dflt
  | (k0, v0) :: rest => if k0 = k then v0 else dictGet rest k dflt

/-- `parser.isoparse(task.due_date)`: raises unless the field holds a valid
ISO string (modelled as the `Except.error` outcome). -/
def parseDue : DueDate → Except String ℚ
  | DueDate.valid t => Except.ok t
  | _ => Except.error "isoparse failed on due_date"

/-- `TimelineEngine._prepare_tasks`: keep tasks that are not completed, have a
truthy `due_date` and a truthy, positive `effort_hours`. -/
def schedulableTask (t : Task) : Bool :=
  !t.completed && (t.due_date != DueDate.absent) &&
    (match t.effort_hours with
     | some e => decide (0 < e)
     | none => false)

def prepare_tasks (tasks : List Task) : List Task :=
  tasks.filter schedulableTask

/-- `TimelineEngine._build_busy_intervals`: parse each busy block's `start` and
`end`; blocks whose strings fail to parse are skipped (`except: continue`).
No further validation happens (inverted intervals are kept as-is). -/
def build_busy_intervals (busy_blocks : List BusyBlock) : List (ℚ × ℚ) :=
  busy_blocks.filterMap fun b =>
    match b.start, b.endT with
    | some s, some e => some (s, e)
    | _, _ => none

/-- Python `task.weight or 10`: a weight of `0` is falsy and falls back. -/
def effectiveWeight (t : Task) : ℚ :=
  match t.weight with
  | some w => if w = 0 then 10 else w
  | none => 10

/-- Python `task.effort_hours or 3`. -/
def effectiveEffort (t : Task) : ℚ :=
  match t.effort_hours with
  | some e => if e = 0 then 3 else e
  | none => 3

/-- The `priority_score` closure in `TimelineEngine._prioritize_tasks`.
`now` is the `datetime.now(tz=tz.UTC)` the closure reads; `(due - today).days`
is `timedelta.days`, i.e. the floor of the difference in days.  Any exception
(e.g. an unparseable due date) yields 0. -/
def priority_score (now : ℚ) (task : Task) : ℚ :=
  match task.due_date with
  | DueDate.valid due =>
      let days_until : ℤ := max ⌊(due - now) / 1440⌋ 0
      let urgency : ℚ := 100 / ((days_until : ℚ) + 1)
      let weight_score : ℚ := effectiveWeight task * 3
      let effort_score : ℚ := effectiveEffort task * 0.5
      urgency * 0.6 + weight_score * 0.3 + effort_score * 0.1
  | _ => 0

/-- `TimelineEngine._prioritize_tasks`: `sorted(tasks, key=priority_score,
reverse=True)`.  Python's sort is stable, and `reverse=True` keeps equal-key
elements in input order, so this is exactly a stable descending insertion
sort by the score. -/
def prioritize_tasks (now : ℚ) (tasks : List Task) : List Task :=
  List.insertionSort (fun a b => priority_score now b ≤ priority_score now a) tasks

/-- `TimelineEngine._get_day_hours_used`: total `duration_hours` of the given
blocks whose start date equals `date`'s date.  The Python method takes several
lists; callers pass their concatenation here. -/
def get_day_hours_used (date : ℚ) (blocks : List ScheduleBlock) : ℚ :=
  ((blocks.filter fun b => dateOf b.start = dateOf date).map ScheduleBlock.duration_hours).sum

/-- The gap sweep at the end of `TimelineEngine._find_free_slot`: walk the
sorted busy periods, return the first gap of at least `duration_delta`
minutes, else the final gap before `day_end` if it is large enough. -/
def slotSweep (duration_delta day_end : ℚ) :
    List (ℚ × ℚ) → ℚ → Option (ℚ × ℚ)
  | [], current =>
      if duration_delta ≤ day_end - current then some (current, current + duration_delta)
      else none
  | (busy_start, busy_end) :: rest, current =>
      if duration_delta ≤ busy_start - current then some (current, current + duration_delta)
      else slotSweep duration_delta day_end rest (max current busy_end)

/-- `TimelineEngine._find_free_slot`.  `day` is the (midnight-aligned)
datetime of the day being searched; `day.replace(hour=h, minute=m)` is
`dateOf day * 1440 + h*60 + m`.  Calendar busy intervals touching this
calendar day (by their start **or end** date) are clipped to the working
window; already-placed blocks starting this day get a trailing break.  The
combined list is stably sorted by start and swept for the earliest gap. -/
def find_free_slot (prefs : UserPreferences) (day : ℚ) (duration_hours : ℚ)
    (busy_intervals : List (ℚ × ℚ)) (existing_blocks : List ScheduleBlock) :
    Option (ℚ × ℚ) :=
  let day_start : ℚ := (dateOf day : ℚ) * 1440 + prefs.start_hour * 60 + prefs.start_minute
  let day_end : ℚ := (dateOf day : ℚ) * 1440 + prefs.end_hour * 60 + prefs.end_minute
  let duration_delta : ℚ := duration_hours * 60
  let min_duration : ℚ := (prefs.min_study_block_minutes : ℚ)
  if duration_delta < min_duration then none
  else
    let busy1 : List (ℚ × ℚ) :=
      (busy_intervals.filter fun p => dateOf p.1 = dateOf day ∨ dateOf p.2 = dateOf day).map
        fun p => (max p.1 day_start, min p.2 day_end)
    let busy2 : List (ℚ × ℚ) :=
      (existing_blocks.filter fun b => dateOf b.start = dateOf day).map
        fun b => (b.start, b.endT + (prefs.break_duration_minutes : ℚ))
    let all_busy := List.insertionSort (fun p q : ℚ × ℚ => p.1 ≤ q.1) (busy1 ++ busy2)
    slotSweep duration_delta day_end all_busy day_start

/-- `TimelineEngine._build_reason`.  `toString` on our exact rationals stands
in for Python's number formatting; the truthiness test `task.weight and
task.weight >= 20` is equivalent to `20 ≤ w` on a present weight. -/
def build_reason (task : Task) (session_num : ℕ) (total_sessions : ℕ)
    (days_until : ℤ) : String :=
  let reasons : List String :=
    (if days_until ≤ 1 then ["⚠️ DUE TOMORROW"]
     else if days_until ≤ 3 then ["Due in " ++ toString days_until ++ " days"]
     else []) ++
    (match task.weight with
     | some w => if 20 ≤ w then [toString w ++ "% of grade"] else []
     | none => []) ++
    ["Session " ++ toString session_num ++ "/" ++ toString total_sessions] ++
    (if session_num = 1 then ["First session"]
     else if session_num = total_sessions then ["Final review"]
     else [])
  String.intercalate " • " reasons

/-- The `while` loop of `TimelineEngine._schedule_task`, as a fuel-indexed
structural recursion.  Each iteration strictly increases `current_day_offset`
and the loop requires `current_day_offset ≤ days_until_due`, so fuel
`days_until_due + 1` (what `schedule_task` supplies) never runs out while the
loop condition holds; the fuel-0 branch is unreachable there. -/
def scheduleGo (prefs : UserPreferences) (task : Task) (busy : List (ℚ × ℚ))
    (existing : List ScheduleBlock) (num_sessions : ℕ) (optimal_session : ℚ)
    (session_spacing : ℕ) (days_until_due : ℕ) (today : ℚ) :
    ℕ → List ScheduleBlock → ℕ → ℚ → ℕ → List ScheduleBlock
  | 0, blocks, _, _, _ => blocks
  | fuel + 1, blocks, sessions_scheduled, remaining, current_day_offset =>
    if sessions_scheduled < num_sessions ∧ 0.5 < remaining ∧
        current_day_offset ≤ days_until_due then
      let schedule_date : ℚ := today + current_day_offset * 1440
      let session_duration : ℚ := min optimal_session remaining
      let day_hours_used := get_day_hours_used schedule_date (existing ++ blocks)
      let available_today : ℚ := prefs.max_hours_per_day - day_hours_used
      if available_today < 0.5 then
        scheduleGo prefs task busy existing num_sessions optimal_session
          session_spacing days_until_due today fuel blocks sessions_scheduled
          remaining (current_day_offset + 1)
      else
        let session_duration := min session_duration available_today
        match find_free_slot prefs schedule_date session_duration busy
            (existing ++ blocks) with
        | some (slot_start, slot_end) =>
            let block : ScheduleBlock :=
              { task_id := task.id
                task_title := task.title
                start := slot_start
                endT := slot_end
                duration_hours := pyRound session_duration 2
                reason := build_reason task (sessions_scheduled + 1) num_sessions
                  ((days_until_due : ℤ) - current_day_offset) }
            scheduleGo prefs task busy existing num_sessions optimal_session
              session_spacing days_until_due today fuel (blocks ++ [block])
              (sessions_scheduled + 1) (remaining - session_duration)
              (current_day_offset + session_spacing)
        | none =>
            scheduleGo prefs task busy existing num_sessions optimal_session
              session_spacing days_until_due today fuel blocks sessions_scheduled
              remaining (current_day_offset + 1)
    else blocks

/-- `TimelineEngine._schedule_task`.  Session-length / buffer / spacing policy
exactly as in the source; note `days_until_due // 4`, `distribution_days //
num_sessions` are Python floor divisions of nonnegative ints (`ℕ` division),
and `max(1, days_until_due - buffer_days)` agrees with `ℕ` subtraction since
the Python value is at least `-2` and is clipped to at least 1. -/
def schedule_task (prefs : UserPreferences) (task : Task) (effort_needed : ℚ)
    (days_until_due : ℕ) (today : ℚ) (busy_intervals : List (ℚ × ℚ))
    (existing_blocks : List ScheduleBlock) : List ScheduleBlock :=
  let optimal_session : ℚ := min 3.0 (max 1.0 (effort_needed / 3))
  let num_sessions : ℕ := ⌈effort_needed / optimal_session⌉.toNat
  let buffer_days : ℕ := min 2 (max 1 (days_until_due / 4))
  let distribution_days : ℕ := max 1 (days_until_due - buffer_days)
  let session_spacing : ℕ :=
    if 1 < num_sessions then max 1 (distribution_days / num_sessions) else 1
  scheduleGo prefs task busy_intervals existing_blocks num_sessions
    optimal_session session_spacing days_until_due today
    (days_until_due + 1) [] 0 effort_needed 0

/-- The mutable per-run state of the task loop in
`TimelineEngine.generate_timeline`: the accumulated schedule blocks, the
`remaining_effort` dict, and the metadata fields updated inside the loop. -/
structure RunState where
  blocks : List ScheduleBlock
  remaining_effort : List (String × ℚ)
  total_hours : ℚ
  tasks_scheduled : ℕ
  tasks_partial : List (String × ℚ)
  tasks_unscheduled : List String
  warnings : List String
deriving DecidableEq, Repr

/-- One iteration of the `for task in prioritized_tasks` loop in
`TimelineEngine.generate_timeline` (`core.py` lines 71-111).  `now` models the
ambient `datetime.now(tz=tz.UTC)` read; `today` is it floored to midnight.
Note that `parser.isoparse(task.due_date)` on line 79 is **not** wrapped in a
try/except: a schedulable task with an unparseable due date raises and aborts
the whole run (the `Except.error` branch). -/
def run_task (prefs : UserPreferences) (busy_intervals : List (ℚ × ℚ)) (now : ℚ)
    (st : RunState) (task : Task) : Except String RunState :=
  let task_key := taskKey task
  let effort_needed := dictGet st.remaining_effort task_key 0
  if effort_needed ≤ 0 then Except.ok st
  else
    match parseDue task.due_date with
    | Except.error e => Except.error e
    | Except.ok due_date =>
      let today : ℚ := (dateOf now : ℚ) * 1440
      let days_until_due : ℤ := dateOf due_date - dateOf today
      if days_until_due < 0 then
        Except.ok { st with
          warnings := st.warnings ++
            ["Task \x27" ++ task.title ++ "\x27 is overdue!"]
          tasks_unscheduled := st.tasks_unscheduled ++ [task.title] }
      else
        let task_blocks := schedule_task prefs task effort_needed
          days_until_due.toNat today busy_intervals st.blocks
        let scheduled_hours : ℚ := (task_blocks.map ScheduleBlock.duration_hours).sum
        let new_remaining : ℚ := effort_needed - scheduled_hours
        let st1 : RunState := { st with
          blocks := st.blocks ++ task_blocks
          remaining_effort := dictSet st.remaining_effort task_key new_remaining
          total_hours := st.total_hours + scheduled_hours }
        if 0.5 < new_remaining then
          Except.ok { st1 with
            tasks_partial := RunState.tasks_partial st1 ++
              [(task.title, pyRound new_remaining 1)] }
        else
          Except.ok { st1 with tasks_scheduled := st1.tasks_scheduled + 1 }

/-- The full task loop; an exception raised for one task aborts the run. -/
def run_tasks (prefs : UserPreferences) (busy_intervals : List (ℚ × ℚ)) (now : ℚ) :
    List Task → RunState → Except String RunState
  | [], st => Except.ok st
  | task :: rest, st =>
      match run_task prefs busy_intervals now st task with
      | Except.error e => Except.error e
      | Except.ok st1 => run_tasks prefs busy_intervals now rest st1

/-- Grouping step of `_calculate_stats`: a Python dict keyed by date in
first-seen (insertion) order, each value the list of that day's blocks. -/
def addToDay : List (ℤ × List ScheduleBlock) → ℤ → ScheduleBlock →
    List (ℤ × List ScheduleBlock)
  | [], d, b => [(d, [b])]
  | (d0, bs) :: rest, d, b =>
      if d0 = d then (d0, bs ++ [b]) :: rest else (d0, bs) :: addToDay rest d b

def groupByDay (blocks : List ScheduleBlock) : List (ℤ × List ScheduleBlock) :=
  blocks.foldl (fun acc b => addToDay acc (dateOf b.start) b) []

/-- Python `max(items, key=lambda x: x[1])`: the first item attaining the
maximal value (later items replace only on strictly greater value). -/
def maxByVal : List (ℤ × ℚ) → Option (ℤ × ℚ)
  | [] => none
  | p :: rest => some (rest.foldl (fun best q => if best.2 < q.2 then q else best) p)

/-- `TimelineEngine._calculate_stats` (the unused `tasks` parameter is kept).
Returns `none` for the empty dict `{}` produced when there are no blocks. -/
def calculate_stats (blocks : List ScheduleBlock) (_tasks : List Task) :
    Option Stats :=
  if blocks = [] then none
  else
    let days := groupByDay blocks
    let daily_hours : List (ℤ × ℚ) :=
      days.map fun p => (p.1, (p.2.map ScheduleBlock.duration_hours).sum)
    let total : ℚ := (daily_hours.map Prod.snd).sum
    let busiest := maxByVal daily_hours
    some
      { total_days_scheduled := days.length
        avg_hours_per_day :=
          if daily_hours = [] then 0 else pyRound (total / daily_hours.length) 1
        busiest_day := busiest.map Prod.fst
        busiest_day_hours := (busiest.map Prod.snd).getD 0 }

/-- `TimelineEngine.generate_timeline`.  `now` is the single explicit stand-in
for the ambient `datetime.now(tz=tz.UTC)` reads at `core.py` lines 80 and 144
(the source reads the clock afresh each time; the reads belong to one run and
are modelled as one instant).  The output block list is stably sorted by start
time.  A `ValueError` escaping the loop is the `Except.error` outcome. -/
def generate_timeline (prefs : UserPreferences) (tasks : List Task)
    (busy_blocks : List BusyBlock) (now : ℚ) :
    Except String (List ScheduleBlock × Metadata) :=
  let schedulable_tasks := prepare_tasks tasks
  if schedulable_tasks = [] then
    Except.ok ([],
      { total_hours := 0
        tasks_scheduled := 0
        tasks_partial := []
        tasks_unscheduled := []
        warnings := ["No tasks with due dates to schedule"]
        stats := none })
  else
    let busy_intervals := build_busy_intervals busy_blocks
    let prioritized_tasks := prioritize_tasks now schedulable_tasks
    let remaining_effort :=
      prioritized_tasks.foldl
        (fun d t => dictSet d (taskKey t) (t.effort_hours.getD 0)) []
    let st0 : RunState :=
      { blocks := []
        remaining_effort := remaining_effort
        total_hours := 0
        tasks_scheduled := 0
        tasks_partial := []
        tasks_unscheduled := []
        warnings := [] }
    match run_tasks prefs busy_intervals now prioritized_tasks st0 with
    | Except.error e => Except.error e
    | Except.ok st =>
        let schedule_blocks :=
          List.insertionSort (fun a b : ScheduleBlock => a.start ≤ b.start) st.blocks
        Except.ok (schedule_blocks,
          { total_hours := st.total_hours
            tasks_scheduled := st.tasks_scheduled
            tasks_partial := RunState.tasks_partial st
            tasks_unscheduled := st.tasks_unscheduled
            warnings := st.warnings
            stats := calculate_stats schedule_blocks prioritized_tasks })

deriving instance DecidableEq for Except

/-- The block list of a successful run (`[]` for an aborted run). -/
def blocksOf (r : Except String (List ScheduleBlock × Metadata)) :
    List ScheduleBlock :=
  match r with
  | Except.ok p => p.1
  | Except.error _ => []

/-- Half-open interval overlap: `[a.1, a.2)` meets `[b.1, b.2)`. -/
def overlaps (a b : ℚ × ℚ) : Prop := a.1 < b.2 ∧ b.1 < a.2

instance (a b : ℚ × ℚ) : Decidable (overlaps a b) := by
  unfold overlaps; infer_instance

/-- The half-open time interval a `ScheduleBlock` occupies. -/
def blockIv (b : ScheduleBlock) : ℚ × ℚ := (b.start, b.endT)

/-- A well-formed block: positive length, contained in the calendar day it
starts on. Every block the slot finder produces (under well-formed
preferences and busy intervals) satisfies this. -/
def InDay (b : ScheduleBlock) : Prop :=
  b.start < b.endT ∧ b.endT ≤ (((dateOf b.start : ℤ) : ℚ) + 1) * 1440

/-- The run invariant: all placed blocks are day-contained and mutually
non-overlapping. -/
def GoodBlocks (l : List ScheduleBlock) : Prop :=
  (∀ b ∈ l, InDay b) ∧ l.Pairwise fun a b => ¬overlaps (blockIv a) (blockIv b)

/-- The spec's scoring formula taken at its word (claim C5):
`weightScore = (weight if present else 10) * 3` — a **present** weight of 0
scores 0 — and `effortScore = effortHours * 0.5`.  Used only for comparison
against `priority_score`, which was translated from the source. -/
def priority_score_claim (now : ℚ) (task : Task) : ℚ :=
  match task.due_date with
  | DueDate.valid due =>
      let days_until : ℤ := max ⌊(due - now) / 1440⌋ 0
      let urgency : ℚ := 100 / ((days_until : ℚ) + 1)
      let weight_score : ℚ := (task.weight.getD 10) * 3
      let effort_score : ℚ := (task.effort_hours.getD 0) * 0.5
      urgency * 0.6 + weight_score * 0.3 + effort_score * 0.1
  | _ => 0

/-- The ordering the claim C5 describes: stable descending sort by the
claim's formula. -/
def prioritize_tasks_claim (now : ℚ) (tasks : List Task) : List Task :=
  List.insertionSort
    (fun a b => priority_score_claim now b ≤ priority_score_claim now a) tasks

/-- The amended C5 scoring formula: as the claim, except that a present weight
of 0 (Python-falsy) also falls back to the default 10, exactly like an absent
weight. On schedulable tasks (present, positive effort) this equals the
source's `priority_score`. -/
def priority_score_amended (now : ℚ) (task : Task) : ℚ :=
  match task.due_date with
  | DueDate.valid due =>
      let days_until : ℤ := max ⌊(due - now) / 1440⌋ 0
      let urgency : ℚ := 100 / ((days_until : ℚ) + 1)
      let weight_score : ℚ := effectiveWeight task * 3
      let effort_score : ℚ := (task.effort_hours.getD 0) * 0.5
      urgency * 0.6 + weight_score * 0.3 + effort_score * 0.1
  | _ => 0

/-! ### Concrete inputs used by witnesses and counterexamples -/

/-- The default `UserPreferences()` record after `TimelineEngine.__init__`. -/
def prefsDefault : UserPreferences :=
  { max_hours_per_day := 6
    start_hour := 9
    start_minute := 0
    end_hour := 22
    end_minute := 0
    break_duration_minutes := 15
    min_study_block_minutes := 30 }

/-- Default preferences with `break_duration_minutes = -120` (an int the API
accepts unvalidated). -/
def prefsNegBreak : UserPreferences :=
  { prefsDefault with break_duration_minutes := -120 }

/-- Preferences with `max_hours_per_day = 0.3` and
`min_study_block_minutes = 6`. -/
def prefsTinyDay : UserPreferences :=
  { prefsDefault with max_hours_per_day := 3 / 10, min_study_block_minutes := 6 }

/-- Default preferences with the (invalid per the spec) value
`min_study_block_minutes = 0`. -/
def prefsZeroMin : UserPreferences :=
  { prefsDefault with min_study_block_minutes := 0 }

/-- A plain schedulable 6-hour task due on day 6. -/
def taskA1 : Task :=
  { id := some "t1"
    title := "A"
    due_date := DueDate.valid (6 * 1440)
    weight := none
    effort_hours := some 6
    completed := false }

def taskB1 : Task := { taskA1 with id := some "t2", title := "B" }

/-- A busy block spanning three calendar days: day 0, 09:00 to day 2, 12:00. -/
def busyTrip : BusyBlock :=
  { title := "trip", start := some 540, endT := some (2 * 1440 + 720) }

/-- A 2-hour task due on day 5. -/
def taskC2 : Task :=
  { id := some "t"
    title := "T"
    due_date := DueDate.valid (5 * 1440)
    weight := none
    effort_hours := some 2
    completed := false }

/-- Busy on day 0 from 09:00 to 21:00. -/
def busyMorning : BusyBlock := { title := "a", start := some 540, endT := some 1260 }

/-- Busy on day 0 from 23:00 to 23:30 — entirely after the 22:00 window end. -/
def busyLate : BusyBlock := { title := "b", start := some 1380, endT := some 1410 }

/-- A 6-hour task due on day 6. -/
def taskC3 : Task := { taskA1 with id := some "t", title := "T" }

/-- A 2-hour task due at noon of day 0. -/
def taskC4 : Task :=
  { id := some "t"
    title := "T"
    due_date := DueDate.valid 720
    weight := none
    effort_hours := some 2
    completed := false }

/-- A task with a **present** weight of 0, due day 1. -/
def taskZeroWeight : Task :=
  { id := some "a"
    title := "A"
    due_date := DueDate.valid 1440
    weight := some 0
    effort_hours := some 2
    completed := false }

/-- As `taskZeroWeight` but with weight 5. -/
def taskSmallWeight : Task :=
  { taskZeroWeight with id := some "b", title := "B", weight := some 5 }

/-- A schedulable task whose due-date string `isoparse` rejects. -/
def taskBadDue : Task :=
  { id := some "t"
    title := "T"
    due_date := DueDate.malformed
    weight := none
    effort_hours := some 2
    completed := false }

/-- A 2-hour task due on day 5 (C7 scenario). -/
def taskC7 : Task := { taskC2 with }

/-- Due at noon today, weight 10, effort 1 hour. -/
def taskSoon : Task :=
  { id := some "a"
    title := "A"
    due_date := DueDate.valid 720
    weight := some 10
    effort_hours := some 1
    completed := false }

/-- Due at noon of day 100, weight 10, effort 2000 hours. -/
def taskHuge : Task :=
  { id := some "b"
    title := "B"
    due_date := DueDate.valid (100 * 1440 + 720)
    weight := some 10
    effort_hours := some 2000
    completed := false }

/-- A schedulable task with `effort_hours = 0.4 ≤ 0.5`, due day 3. -/
def taskTinyEffort : Task :=
  { id := some "t"
    title := "T"
    due_date := DueDate.valid (3 * 1440)
    weight := none
    effort_hours := some (2 / 5)
    completed := false }

/-- A 2-hour task due on day 3 (used for well-behaved witness runs). -/
def taskPlain : Task :=
  { id := some "w"
    title := "W"
    due_date := DueDate.valid (3 * 1440)
    weight := none
    effort_hours := some 2
    completed := false }

/-- An empty run state (the orchestrator's initial state with one-entry
effort dict for `taskTinyEffort`). -/
def stateTiny : RunState :=
  { blocks := []
    remaining_effort := [("t", 2 / 5)]
    total_hours := 0
    tasks_scheduled := 0
    tasks_partial := []
    tasks_unscheduled := []
    warnings := [] }

/-- A pre-existing block occupying 0.75 hours on day 0 (C7 witness). -/
def blockThreeQuarters : ScheduleBlock :=
  { task_id := some "x"
    task_title := "X"
    start := 540
    endT := 585
    duration_hours := 3 / 4
    reason := "" }

/-- Default preferences with a 1-hour daily budget. -/
def prefsOneHour : UserPreferences := { prefsDefault with max_hours_per_day := 1 }

/-! ## General lemmas: stable insertion sort by a rational key, calendar days -/

theorem pairwise_insertionSort_le {α : Type _} (f : α → ℚ) (l : List α) :
    (List.insertionSort (fun a b => f a ≤ f b) l).Pairwise fun a b => f a ≤ f b := by
  haveI : IsTotal α fun a b => f a ≤ f b := ⟨fun a b => le_total (f a) (f b)⟩
  haveI : IsTrans α fun a b => f a ≤ f b := ⟨fun _ _ _ h1 h2 => le_trans h1 h2⟩
  exact List.sorted_insertionSort _ l

theorem pairwise_insertionSort_ge {α : Type _} (f : α → ℚ) (l : List α) :
    (List.insertionSort (fun a b => f b ≤ f a) l).Pairwise fun a b => f b ≤ f a := by
  haveI : IsTotal α fun a b => f b ≤ f a := ⟨fun a b => le_total (f b) (f a)⟩
  haveI : IsTrans α fun a b => f b ≤ f a := ⟨fun _ _ _ h1 h2 => le_trans h2 h1⟩
  exact List.sorted_insertionSort _ l

theorem filter_orderedInsert_key {α : Type _} (f : α → ℚ) (c : ℚ) (a : α)
    (l : List α) :
    (List.orderedInsert (fun x y => f y ≤ f x) a l).filter
        (fun t => decide (f t = c)) =
      if f a = c then a :: l.filter (fun t => decide (f t = c))
      else l.filter fun t => decide (f t = c) := by
  induction l with
  | nil => by_cases hac : f a = c <;> simp [List.orderedInsert, hac]
  | cons b l ih =>
    simp only [List.orderedInsert]
    by_cases hba : f b ≤ f a
    · rw [if_pos hba]
      by_cases hac : f a = c <;> simp [List.filter_cons, hac]
    · rw [if_neg hba]
      rw [List.filter_cons, List.filter_cons, ih]
      by_cases hac : f a = c
      · have hbc : ¬(f b = c) := fun h => hba (le_of_eq (h.trans hac.symm))
        simp [hac, hbc]
      · simp [hac]

theorem filter_insertionSort_key {α : Type _} (f : α → ℚ) (c : ℚ) (l : List α) :
    (List.insertionSort (fun x y => f y ≤ f x) l).filter
        (fun t => decide (f t = c)) =
      l.filter fun t => decide (f t = c) := by
  induction l with
  | nil => rfl
  | cons a l ih =>
    simp only [List.insertionSort]
    rw [filter_orderedInsert_key, List.filter_cons]
    by_cases hac : f a = c <;> simp [hac, ih]

theorem dateOf_eq_iff {t : ℚ} {d : ℤ} :
    dateOf t = d ↔ (d : ℚ) * 1440 ≤ t ∧ t < ((d : ℚ) + 1) * 1440 := by
  unfold dateOf
  rw [Int.floor_eq_iff]
  constructor
  · rintro ⟨h1, h2⟩
    refine ⟨?_, ?_⟩
    · calc (d : ℚ) * 1440 ≤ t / 1440 * 1440 := by
            exact mul_le_mul_of_nonneg_right h1 (by norm_num)
        _ = t := by field_simp
    · have := (div_lt_iff₀ (by norm_num : (0:ℚ) < 1440)).mp h2
      push_cast at this ⊢
      linarith
  · rintro ⟨h1, h2⟩
    refine ⟨?_, ?_⟩
    · rw [le_div_iff₀ (by norm_num : (0:ℚ) < 1440)]
      exact h1
    · rw [div_lt_iff₀ (by norm_num : (0:ℚ) < 1440)]
      linarith

theorem dateOf_base_le (t : ℚ) : ((dateOf t : ℤ) : ℚ) * 1440 ≤ t :=
  (dateOf_eq_iff.mp rfl).1

theorem lt_dateOf_add_one (t : ℚ) : t < (((dateOf t : ℤ) : ℚ) + 1) * 1440 :=
  (dateOf_eq_iff.mp rfl).2

theorem dateOf_eq_of_bounds {t : ℚ} {d : ℤ} (h1 : (d : ℚ) * 1440 ≤ t)
    (h2 : t < ((d : ℚ) + 1) * 1440) : dateOf t = d :=
  dateOf_eq_iff.mpr ⟨h1, h2⟩

/-! ## Soundness of the slot finder -/

theorem slotSweep_sound {dd dend : ℚ} :
    ∀ (l : List (ℚ × ℚ)) (cur s e : ℚ),
      l.Pairwise (fun p q : ℚ × ℚ => p.1 ≤ q.1) →
      slotSweep dd dend l cur = some (s, e) →
      e = s + dd ∧ cur ≤ s ∧ (∀ p ∈ l, p.2 ≤ s ∨ e ≤ p.1) ∧
        (e ≤ dend ∨ ∃ p ∈ l, e ≤ p.1) := by
  intro l
  induction l with
  | nil =>
    intro cur s e _ h
    unfold slotSweep at h
    split at h
    · rename_i hgap
      simp only [Option.some.injEq, Prod.mk.injEq] at h
      obtain ⟨rfl, rfl⟩ := h
      exact ⟨rfl, le_refl _, by simp, Or.inl (by linarith)⟩
    · simp at h
  | cons hd tl ih =>
    intro cur s e hpw h
    obtain ⟨bs, be⟩ := hd
    unfold slotSweep at h
    split at h
    · rename_i hgap
      simp only [Option.some.injEq, Prod.mk.injEq] at h
      obtain ⟨rfl, rfl⟩ := h
      refine ⟨rfl, le_refl _, ?_, ?_⟩
      · intro p hp
        rcases List.mem_cons.mp hp with rfl | hp'
        · right; simpa using by linarith
        · right
          have hble : bs ≤ p.1 := (List.pairwise_cons.mp hpw).1 p hp'
          linarith
      · exact Or.inr ⟨(bs, be), List.mem_cons_self _ _, by simpa using by linarith⟩
    · rename_i hgap
      have hpw' := (List.pairwise_cons.mp hpw).2
      obtain ⟨he, hcur, hall, hend⟩ := ih (max cur be) s e hpw' h
      refine ⟨he, le_trans (le_max_left _ _) hcur, ?_, ?_⟩
      · intro p hp
        rcases List.mem_cons.mp hp with rfl | hp'
        · exact Or.inl (le_trans (le_max_right cur be) hcur)
        · exact hall p hp'
      · rcases hend with h1 | ⟨p, hp, hle⟩
        · exact Or.inl h1
        · exact Or.inr ⟨p, List.mem_cons_of_mem _ hp, hle⟩

theorem find_free_slot_sound {prefs : UserPreferences} {day dur s e : ℚ}
    {busy : List (ℚ × ℚ)} {existing : List ScheduleBlock}
    (hbusy : ∀ p ∈ busy, p.1 ≤ p.2)
    (hsw : prefs.start_hour * 60 + prefs.start_minute < 1440)
    (hew : prefs.end_hour * 60 + prefs.end_minute < 1440)
    (hbr : 0 ≤ prefs.break_duration_minutes)
    (h : find_free_slot prefs day dur busy existing = some (s, e)) :
    e = s + dur * 60 ∧
      ((dateOf day : ℤ) : ℚ) * 1440 ≤ s ∧
      e < (((dateOf day : ℤ) : ℚ) + 1) * 1440 ∧
      ∀ b ∈ existing, dateOf b.start = dateOf day → b.endT ≤ s ∨ e ≤ b.start := by
  have hM : ((dateOf day : ℤ) : ℚ) * 1440 + 1440 = (((dateOf day : ℤ) : ℚ) + 1) * 1440 := by
    ring
  simp only [find_free_slot] at h
  split at h
  · simp at h
  rename_i hmin
  set d : ℤ := dateOf day with hd
  set day_start : ℚ := (d : ℚ) * 1440 + prefs.start_hour * 60 + prefs.start_minute
    with hday_start
  set day_end : ℚ := (d : ℚ) * 1440 + prefs.end_hour * 60 + prefs.end_minute
    with hday_end
  set busy1 : List (ℚ × ℚ) :=
    (busy.filter fun p => decide (dateOf p.1 = d ∨ dateOf p.2 = d)).map
      (fun p => (max p.1 day_start, min p.2 day_end)) with hbusy1
  set busy2 : List (ℚ × ℚ) :=
    (existing.filter fun b => decide (dateOf b.start = d)).map
      (fun b => (b.start, b.endT + (prefs.break_duration_minutes : ℚ))) with hbusy2
  set all_busy := List.insertionSort (fun p q : ℚ × ℚ => p.1 ≤ q.1) (busy1 ++ busy2)
    with hall_busy
  have hsorted : all_busy.Pairwise fun p q : ℚ × ℚ => p.1 ≤ q.1 :=
    pairwise_insertionSort_le Prod.fst (busy1 ++ busy2)
  obtain ⟨he, hcur, hdisj, hend⟩ := slotSweep_sound all_busy day_start s e hsorted h
  have hmem_all : ∀ p : ℚ × ℚ, p ∈ all_busy ↔ p ∈ busy1 ++ busy2 := fun p =>
    (List.perm_insertionSort (fun p q : ℚ × ℚ => p.1 ≤ q.1) (busy1 ++ busy2)).mem_iff
  have hds_lt : day_start < (d : ℚ) * 1440 + 1440 := by
    rw [hday_start]
    have : (prefs.start_hour * 60 + prefs.start_minute : ℚ) < 1440 := by
      exact_mod_cast hsw
    linarith
  have hde_lt : day_end < (d : ℚ) * 1440 + 1440 := by
    rw [hday_end]
    have : (prefs.end_hour * 60 + prefs.end_minute : ℚ) < 1440 := by
      exact_mod_cast hew
    linarith
  have hstarts : ∀ p ∈ all_busy, p.1 < (d : ℚ) * 1440 + 1440 := by
    intro p hp
    rcases List.mem_append.mp ((hmem_all p).mp hp) with hp1 | hp2
    · rw [hbusy1] at hp1
      obtain ⟨q, hq, rfl⟩ := List.mem_map.mp hp1
      obtain ⟨hqmem, hqd⟩ := List.mem_filter.mp hq
      have hqd' : dateOf q.1 = d ∨ dateOf q.2 = d := by
        simpa using hqd
      have hq1 : q.1 < (d : ℚ) * 1440 + 1440 := by
        rcases hqd' with h1 | h2
        · have := lt_dateOf_add_one q.1
          rw [h1] at this
          linarith
        · have := lt_dateOf_add_one q.2
          rw [h2] at this
          have hle := hbusy q hqmem
          linarith
      exact max_lt hq1 hds_lt
    · rw [hbusy2] at hp2
      obtain ⟨b, hb, rfl⟩ := List.mem_map.mp hp2
      obtain ⟨hbmem, hbd⟩ := List.mem_filter.mp hb
      have hbd' : dateOf b.start = d := by simpa using hbd
      have := lt_dateOf_add_one b.start
      rw [hbd'] at this
      simpa using by linarith
  have hbase : (d : ℚ) * 1440 ≤ day_start := by
    rw [hday_start]
    have h0 : (0 : ℚ) ≤ (prefs.start_hour : ℚ) * 60 + prefs.start_minute := by
      positivity
    linarith
  have hlt : e < ((d : ℚ) + 1) * 1440 := by
    rw [← hM]
    rcases hend with h1 | ⟨p, hp, hle⟩
    · linarith
    · have := hstarts p hp
      linarith
  refine ⟨he, le_trans hbase hcur, hlt, ?_⟩
  intro b hb hbd
  have hmem2 : (b.start, b.endT + (prefs.break_duration_minutes : ℚ)) ∈ busy2 := by
    rw [hbusy2]
    exact List.mem_map.mpr ⟨b, List.mem_filter.mpr ⟨hb, by simpa using hbd⟩, rfl⟩
  have hmem : (b.start, b.endT + (prefs.break_duration_minutes : ℚ)) ∈ all_busy :=
    (hmem_all _).mpr (List.mem_append.mpr (Or.inr hmem2))
  rcases hdisj _ hmem with h1 | h2
  · left
    have hbr' : (0 : ℚ) ≤ (prefs.break_duration_minutes : ℚ) := by exact_mod_cast hbr
    simp only at h1
    linarith
  · exact Or.inr h2

/-! ## The no-overlap invariant -/

theorem overlaps_symm {a b : ℚ × ℚ} (h : overlaps a b) : overlaps b a :=
  ⟨h.2, h.1⟩

theorem disjoint_of_ne_date {a b : ScheduleBlock} (ha : InDay a) (hb : InDay b)
    (h : dateOf a.start ≠ dateOf b.start) :
    ¬overlaps (blockIv a) (blockIv b) := by
  intro hov
  obtain ⟨h1, h2⟩ := hov
  simp only [blockIv] at h1 h2
  rcases lt_or_gt_of_ne h with hlt | hgt
  · have hstep : ((dateOf a.start : ℤ) : ℚ) + 1 ≤ ((dateOf b.start : ℤ) : ℚ) := by
      exact_mod_cast hlt
    have h3 : (((dateOf a.start : ℤ) : ℚ) + 1) * 1440 ≤
        ((dateOf b.start : ℤ) : ℚ) * 1440 :=
      mul_le_mul_of_nonneg_right hstep (by norm_num)
    have h4 := dateOf_base_le b.start
    have h5 := ha.2
    linarith
  · have hstep : ((dateOf b.start : ℤ) : ℚ) + 1 ≤ ((dateOf a.start : ℤ) : ℚ) := by
      exact_mod_cast hgt
    have h3 : (((dateOf b.start : ℤ) : ℚ) + 1) * 1440 ≤
        ((dateOf a.start : ℤ) : ℚ) * 1440 :=
      mul_le_mul_of_nonneg_right hstep (by norm_num)
    have h4 := dateOf_base_le a.start
    have h5 := hb.2
    linarith

theorem goodBlocks_append {prefs : UserPreferences} {day dur s e : ℚ}
    {busy : List (ℚ × ℚ)} {L : List ScheduleBlock} {nb : ScheduleBlock}
    (hbusy : ∀ p ∈ busy, p.1 ≤ p.2)
    (hsw : prefs.start_hour * 60 + prefs.start_minute < 1440)
    (hew : prefs.end_hour * 60 + prefs.end_minute < 1440)
    (hbr : 0 ≤ prefs.break_duration_minutes)
    (hdur : 0 < dur)
    (hgood : GoodBlocks L)
    (hslot : find_free_slot prefs day dur busy L = some (s, e))
    (hnbs : nb.start = s) (hnbe : nb.endT = e) :
    GoodBlocks (L ++ [nb]) := by
  obtain ⟨he, hbase, hlt, hdisj⟩ := find_free_slot_sound hbusy hsw hew hbr hslot
  have hse : s < e := by
    rw [he]
    have : (0 : ℚ) < dur * 60 := by positivity
    linarith
  have hdate : dateOf nb.start = dateOf day := by
    rw [hnbs]
    exact dateOf_eq_of_bounds hbase (by linarith)
  have hin : InDay nb := by
    refine ⟨by rw [hnbs, hnbe]; exact hse, ?_⟩
    rw [hnbe, hdate]
    linarith
  constructor
  · intro b hbmem
    rcases List.mem_append.mp hbmem with hbl | hbr'
    · exact hgood.1 b hbl
    · rw [List.mem_singleton.mp hbr']
      exact hin
  · rw [List.pairwise_append]
    refine ⟨hgood.2, List.pairwise_singleton _ _, ?_⟩
    intro a hal b' hbr'
    rw [List.mem_singleton.mp hbr']
    by_cases hd : dateOf a.start = dateOf day
    · intro hov
      obtain ⟨h1, h2⟩ := hov
      simp only [blockIv, hnbs, hnbe] at h1 h2
      rcases hdisj a hal hd with h3 | h3 <;> linarith
    · exact disjoint_of_ne_date (hgood.1 a hal) hin (by rw [hdate]; exact hd)

theorem scheduleGo_good {prefs : UserPreferences} {task : Task}
    {busy : List (ℚ × ℚ)} {existing : List ScheduleBlock} {num_sessions : ℕ}
    {optimal_session : ℚ} {session_spacing days_until_due : ℕ} {today : ℚ}
    (hbusy : ∀ p ∈ busy, p.1 ≤ p.2)
    (hsw : prefs.start_hour * 60 + prefs.start_minute < 1440)
    (hew : prefs.end_hour * 60 + prefs.end_minute < 1440)
    (hbr : 0 ≤ prefs.break_duration_minutes)
    (hopt : 0 < optimal_session) :
    ∀ (fuel : ℕ) (blocks : List ScheduleBlock) (sessions : ℕ) (remaining : ℚ)
      (offset : ℕ),
      GoodBlocks (existing ++ blocks) →
      GoodBlocks (existing ++
        scheduleGo prefs task busy existing num_sessions optimal_session
          session_spacing days_until_due today fuel blocks sessions remaining
          offset) := by
  intro fuel
  induction fuel with
  | zero => intro blocks _ _ _ hg; exact hg
  | succ fuel ih =>
    intro blocks sessions remaining offset hg
    rw [scheduleGo]
    dsimp only
    split
    · rename_i hcond
      split
      · exact ih _ _ _ _ hg
      · rename_i hav
        split
        · rename_i slot_start slot_end hslot
          apply ih
          rw [← List.append_assoc]
          refine goodBlocks_append hbusy hsw hew hbr ?_ hg hslot rfl rfl
          have h1 : (0 : ℚ) <
              min optimal_session remaining := lt_min hopt (by linarith [hcond.2.1])
          exact lt_min h1 (by linarith)
        · exact ih _ _ _ _ hg
    · exact hg

theorem schedule_task_good {prefs : UserPreferences} {task : Task}
    {effort_needed : ℚ} {days_until_due : ℕ} {today : ℚ}
    {busy : List (ℚ × ℚ)} {existing : List ScheduleBlock}
    (hbusy : ∀ p ∈ busy, p.1 ≤ p.2)
    (hsw : prefs.start_hour * 60 + prefs.start_minute < 1440)
    (hew : prefs.end_hour * 60 + prefs.end_minute < 1440)
    (hbr : 0 ≤ prefs.break_duration_minutes)
    (hgood : GoodBlocks existing) :
    GoodBlocks (existing ++
      schedule_task prefs task effort_needed days_until_due today busy existing) := by
  have hopt : (0 : ℚ) < min 3.0 (max 1.0 (effort_needed / 3)) :=
    lt_min (by norm_num) (lt_of_lt_of_le one_pos (by norm_num [le_max_iff]))
  unfold schedule_task
  dsimp only
  exact @scheduleGo_good prefs task busy existing _ _ _ _ _
    hbusy hsw hew hbr hopt (days_until_due + 1) [] 0 effort_needed 0
    (by simpa using hgood)

theorem run_task_good {prefs : UserPreferences} {busy : List (ℚ × ℚ)} {now : ℚ}
    {st st' : RunState} {task : Task}
    (hbusy : ∀ p ∈ busy, p.1 ≤ p.2)
    (hsw : prefs.start_hour * 60 + prefs.start_minute < 1440)
    (hew : prefs.end_hour * 60 + prefs.end_minute < 1440)
    (hbr : 0 ≤ prefs.break_duration_minutes)
    (hg : GoodBlocks st.blocks)
    (h : run_task prefs busy now st task = Except.ok st') :
    GoodBlocks st'.blocks := by
  simp only [run_task] at h
  split at h
  · injection h with h; subst h; exact hg
  · split at h
    · exact Except.noConfusion h
    · split at h
      · injection h with h; subst h; exact hg
      · split at h
        · injection h with h; subst h
          exact schedule_task_good hbusy hsw hew hbr hg
        · injection h with h; subst h
          exact schedule_task_good hbusy hsw hew hbr hg

theorem run_tasks_good {prefs : UserPreferences} {busy : List (ℚ × ℚ)} {now : ℚ}
    (hbusy : ∀ p ∈ busy, p.1 ≤ p.2)
    (hsw : prefs.start_hour * 60 + prefs.start_minute < 1440)
    (hew : prefs.end_hour * 60 + prefs.end_minute < 1440)
    (hbr : 0 ≤ prefs.break_duration_minutes) :
    ∀ (tasks : List Task) (st st' : RunState),
      GoodBlocks st.blocks →
      run_tasks prefs busy now tasks st = Except.ok st' →
      GoodBlocks st'.blocks := by
  intro tasks
  induction tasks with
  | nil =>
    intro st st' hg h
    unfold run_tasks at h
    injection h with h; subst h; exact hg
  | cons t rest ih =>
    intro st st' hg h
    unfold run_tasks at h
    split at h
    · exact Except.noConfusion h
    · rename_i st1 hst1
      exact ih st1 st' (run_task_good hbusy hsw hew hbr hg hst1) h

/-- C1 — amended.  For every run of the engine whose preferences have a
well-formed working window (`HH < 24`, `MM < 60` on both ends expressed as
`HH*60 + MM < 1440`) and a nonnegative break duration, and whose parseable
busy intervals are ordered (`start ≤ end`), the `[start, end)` intervals of
any two distinct ScheduleBlocks in the output never overlap. -/
theorem c1_no_overlap {prefs : UserPreferences} {tasks : List Task}
    {busy_blocks : List BusyBlock} {now : ℚ}
    (hsw : prefs.start_hour * 60 + prefs.start_minute < 1440)
    (hew : prefs.end_hour * 60 + prefs.end_minute < 1440)
    (hbr : 0 ≤ prefs.break_duration_minutes)
    (hbusy : ∀ p ∈ build_busy_intervals busy_blocks, p.1 ≤ p.2) :
    (blocksOf (generate_timeline prefs tasks busy_blocks now)).Pairwise
      fun a b => ¬overlaps (blockIv a) (blockIv b) := by
  unfold generate_timeline
  dsimp only
  split
  · simp [blocksOf]
  · split
    · simp [blocksOf]
    · rename_i st hst
      have hg : GoodBlocks st.blocks :=
        run_tasks_good hbusy hsw hew hbr _ _ _ ⟨by simp, List.Pairwise.nil⟩ hst
      simp only [blocksOf]
      have hperm :=
        List.perm_insertionSort (fun a b : ScheduleBlock => a.start ≤ b.start) st.blocks
      exact (hperm.pairwise_iff fun h hov => h (overlaps_symm hov)).mpr hg.2

/-! ## Prioritizer lemmas -/

theorem schedulableTask_effort {t : Task} (h : schedulableTask t = true) :
    ∃ e, t.effort_hours = some e ∧ 0 < e := by
  unfold schedulableTask at h
  rcases he : t.effort_hours with _ | e
  · rw [he] at h; simp at h
  · rw [he] at h
    simp only [Bool.and_eq_true, decide_eq_true_eq] at h
    exact ⟨e, rfl, h.2⟩

theorem priority_score_amended_eq {now : ℚ} {t : Task}
    (h : schedulableTask t = true) :
    priority_score_amended now t = priority_score now t := by
  obtain ⟨e, he, hpos⟩ := schedulableTask_effort h
  unfold priority_score_amended priority_score effectiveEffort
  cases t.due_date with
  | absent => rfl
  | malformed => rfl
  | valid due =>
    rw [he]
    simp only [Option.getD_some, if_neg (ne_of_gt hpos)]

theorem mem_of_mem_prioritize {now : ℚ} {tasks : List Task} {t : Task}
    (h : t ∈ prioritize_tasks now tasks) : t ∈ tasks :=
  (List.perm_insertionSort
    (fun a b => priority_score now b ≤ priority_score now a) tasks).subset h

/-! ## Planner step lemmas -/

theorem scheduleGo_small_effort {prefs : UserPreferences} {task : Task}
    {busy : List (ℚ × ℚ)} {existing : List ScheduleBlock} {num_sessions : ℕ}
    {optimal_session : ℚ} {session_spacing days_until_due : ℕ} {today : ℚ}
    {fuel : ℕ} {remaining : ℚ} {sessions offset : ℕ}
    (h : remaining ≤ 0.5) :
    scheduleGo prefs task busy existing num_sessions optimal_session
      session_spacing days_until_due today fuel [] sessions remaining offset = [] := by
  cases fuel with
  | zero => rfl
  | succ fuel =>
    rw [scheduleGo]
    dsimp only
    rw [if_neg]
    rintro ⟨-, h2, -⟩
    exact absurd h2 (not_lt.mpr h)

theorem schedule_task_small_effort {prefs : UserPreferences} {task : Task}
    {effort_needed : ℚ} {days_until_due : ℕ} {today : ℚ}
    {busy : List (ℚ × ℚ)} {existing : List ScheduleBlock}
    (h : effort_needed ≤ 0.5) :
    schedule_task prefs task effort_needed days_until_due today busy existing = [] := by
  unfold schedule_task
  exact scheduleGo_small_effort h

theorem dateOf_midnight (d : ℤ) : dateOf ((d : ℚ) * 1440) = d :=
  dateOf_eq_of_bounds (le_refl _) (by linarith)

/-! ## Claim theorems -/

/-- C5 — amended.  On schedulable task lists, `_prioritize_tasks` orders the
tasks descending by the amended score — `priority = urgency*0.6 +
weightScore*0.3 + effortScore*0.1` with `daysUntilDue = max(floor(dueDate -
now in days), 0)`, `urgency = 100/(daysUntilDue+1)`, `weightScore = (weight
if present **and nonzero** else 10)*3`, `effortScore = effortHours*0.5`, and
score 0 for an unparseable due date instead of raising — and, for every score
value, the tasks attaining that score appear in their original input order
(stable sort). -/
theorem c5_prioritizer {now : ℚ} {tasks : List Task}
    (h : ∀ t ∈ tasks, schedulableTask t = true) :
    (prioritize_tasks now tasks).Pairwise
      (fun a b => priority_score_amended now b ≤ priority_score_amended now a) ∧
    ∀ c : ℚ,
      (prioritize_tasks now tasks).filter
          (fun t => decide (priority_score_amended now t = c)) =
        tasks.filter fun t => decide (priority_score_amended now t = c) := by
  constructor
  · have hp := pairwise_insertionSort_ge (priority_score now) tasks
    refine List.Pairwise.imp_of_mem ?_ hp
    intro a b ha hb hab
    rw [priority_score_amended_eq (h a (mem_of_mem_prioritize ha)),
      priority_score_amended_eq (h b (mem_of_mem_prioritize hb))]
    exact hab
  · intro c
    have hl : (prioritize_tasks now tasks).filter
          (fun t => decide (priority_score_amended now t = c)) =
        (prioritize_tasks now tasks).filter
          (fun t => decide (priority_score now t = c)) := by
      apply List.filter_congr
      intro t ht
      rw [priority_score_amended_eq (h t (mem_of_mem_prioritize ht))]
    have hr : tasks.filter (fun t => decide (priority_score_amended now t = c)) =
        tasks.filter (fun t => decide (priority_score now t = c)) := by
      apply List.filter_congr
      intro t ht
      rw [priority_score_amended_eq (h t ht)]
    rw [hl, hr]
    exact filter_insertionSort_key (priority_score now) c tasks

/-- C7 — amended.  In the Session Planner's day-walk, whenever the day's
remaining headroom `maxHoursPerDay - dayHoursUsed` is below the hardcoded
constant 0.5 hours — not below `minStudyBlockMinutes` converted to hours; the
preferences here are arbitrary, so `minStudyBlockMinutes` can be anything —
the day is skipped: the walk advances exactly one day with the same blocks,
session count and remaining effort, and the slot finder is not consulted. -/
theorem c7_skip_step {prefs : UserPreferences} {task : Task} {busy : List (ℚ × ℚ)}
    {existing : List ScheduleBlock} {num_sessions : ℕ} {optimal_session : ℚ}
    {session_spacing days_until_due : ℕ} {today : ℚ} {fuel : ℕ}
    {blocks : List ScheduleBlock} {sessions : ℕ} {remaining : ℚ} {offset : ℕ}
    (hcond : sessions < num_sessions ∧ 0.5 < remaining ∧ offset ≤ days_until_due)
    (hskip : prefs.max_hours_per_day -
        get_day_hours_used (today + (offset : ℚ) * 1440) (existing ++ blocks) < 0.5) :
    scheduleGo prefs task busy existing num_sessions optimal_session
        session_spacing days_until_due today (fuel + 1) blocks sessions remaining
        offset =
      scheduleGo prefs task busy existing num_sessions optimal_session
        session_spacing days_until_due today fuel blocks sessions remaining
        (offset + 1) := by
  rw [scheduleGo]
  dsimp only
  rw [if_pos hcond, if_pos hskip]

/-- C8 — amended.  If task A's due date is earlier than task B's, A's
*effective* weight (`weight or 10`: absent or zero falls back to 10) is at
least B's, and A's *effective* effort (`effort_hours or 3`) is at least B's,
then A's priority score is at least B's.  The claim's original "regardless of
effort" and raw-weight comparison both fail (see the counterexamples). -/
theorem c8_monotone_priority {now dueA dueB : ℚ} {tA tB : Task}
    (hdA : tA.due_date = DueDate.valid dueA)
    (hdB : tB.due_date = DueDate.valid dueB)
    (hdue : dueA < dueB)
    (hw : effectiveWeight tB ≤ effectiveWeight tA)
    (he : effectiveEffort tB ≤ effectiveEffort tA) :
    priority_score now tB ≤ priority_score now tA := by
  unfold priority_score
  rw [hdA, hdB]
  dsimp only
  have hfloor : ⌊(dueA - now) / 1440⌋ ≤ ⌊(dueB - now) / 1440⌋ := by
    apply Int.floor_le_floor
    gcongr
  have hd : max ⌊(dueA - now) / 1440⌋ 0 ≤ max ⌊(dueB - now) / 1440⌋ 0 :=
    max_le_max hfloor (le_refl 0)
  have h0A : (0 : ℤ) ≤ max ⌊(dueA - now) / 1440⌋ 0 := le_max_right _ _
  have hdq : ((max ⌊(dueA - now) / 1440⌋ 0 : ℤ) : ℚ) ≤
      ((max ⌊(dueB - now) / 1440⌋ 0 : ℤ) : ℚ) := by exact_mod_cast hd
  have h0q : (0 : ℚ) ≤ ((max ⌊(dueA - now) / 1440⌋ 0 : ℤ) : ℚ) := by exact_mod_cast h0A
  have hu : (100 : ℚ) / (((max ⌊(dueB - now) / 1440⌋ 0 : ℤ) : ℚ) + 1) ≤
      (100 : ℚ) / (((max ⌊(dueA - now) / 1440⌋ 0 : ℤ) : ℚ) + 1) := by
    gcongr
  nlinarith [hu, hw, he]

/-- C10 — confirmed.  A schedulable task with `0 < effort_hours ≤ 0.5` whose
due date is parseable and not in the past gets **zero** ScheduleBlocks from
the session-planning loop (the loop guard needs `remaining > 0.5`), yet the
orchestrator counts it in `tasks_scheduled` and adds it to neither
`tasks_partial` nor `tasks_unscheduled`. -/
theorem c10_small_effort_counted_scheduled {prefs : UserPreferences}
    {busy : List (ℚ × ℚ)} {now : ℚ} {st : RunState} {task : Task} {due e : ℚ}
    (hdue : task.due_date = DueDate.valid due)
    (heff : dictGet st.remaining_effort (taskKey task) 0 = e)
    (hpos : 0 < e) (hle : e ≤ 0.5)
    (hdays : dateOf now ≤ dateOf due) :
    run_task prefs busy now st task =
      Except.ok { st with
        remaining_effort := dictSet st.remaining_effort (taskKey task) e
        blocks := st.blocks ++ []
        total_hours := st.total_hours + 0
        tasks_scheduled := st.tasks_scheduled + 1 } := by
  have hdt : dateOf ((dateOf now : ℚ) * 1440) = dateOf now := dateOf_midnight _
  simp only [run_task, heff, hdue, parseDue, hdt]
  rw [if_neg (not_le.mpr hpos)]
  rw [if_neg (not_lt.mpr (sub_nonneg.mpr (by exact_mod_cast hdays)))]
  rw [schedule_task_small_effort hle]
  simp only [List.map_nil, List.sum_nil, sub_zero]
  rw [if_neg (not_lt.mpr hle)]

/-! ## Concrete counterexamples, code-bug demonstrations, witnesses -/

set_option maxRecDepth 40000 in
/-- C1 — counterexample to the claim as stated ("any preferences"): with
`break_duration_minutes = -120` (accepted unvalidated), the busy overlay
entry `(block_start, block_end + break)` no longer covers the block it stands
for, and a second task is scheduled on top of the first one's sessions:
the output block list has overlapping pairs. -/
theorem c1_counterexample :
    ¬(blocksOf (generate_timeline prefsNegBreak [taskA1, taskB1] [] 0)).Pairwise
      fun a b => ¬overlaps (blockIv a) (blockIv b) := by
  with_unfolding_all decide

set_option maxRecDepth 40000 in
/-- Witness for C1 (amended): a concrete well-formed run to which
`c1_no_overlap` applies, with every hypothesis discharged. -/
theorem c1_no_overlap_witness :
    prefsDefault.start_hour * 60 + prefsDefault.start_minute < 1440 ∧
    prefsDefault.end_hour * 60 + prefsDefault.end_minute < 1440 ∧
    0 ≤ prefsDefault.break_duration_minutes ∧
    (blocksOf (generate_timeline prefsDefault [taskPlain] [] 0)).Pairwise
      fun a b => ¬overlaps (blockIv a) (blockIv b) :=
  ⟨by decide, by decide, by decide,
    c1_no_overlap (by decide) (by decide) (by decide)
      (by intro p hp; simp [build_busy_intervals] at hp)⟩

set_option maxRecDepth 40000 in
/-- C2 — code bug.  `_find_free_slot` admits a calendar busy interval only
when its start **or end** date equals the day being searched (`core.py` line
305), so the middle days of a multi-day busy interval are invisible: with
`busyTrip` spanning day 0, 09:00 → day 2, 12:00, the engine places a study
block on day 1 that lies strictly inside the busy interval. -/
theorem c2_busy_overlap_bug :
    ((blocksOf (generate_timeline prefsDefault [taskC2] [busyTrip] 0)).any
      fun b => (build_busy_intervals [busyTrip]).any
        fun p => decide (overlaps (blockIv b) p)) = true := by
  with_unfolding_all decide

set_option maxRecDepth 40000 in
/-- C3 — code bug.  A busy interval starting after the window's end (23:00 on
a 09:00–22:00 window) is clipped to the inverted pair `(23:00, 22:00)`; the
gap sweep then measures the gap up to 23:00 and returns a slot ending at
23:00, one hour past the preferred window end: some output block ends after
`preferredEnd` of its day. -/
theorem c3_window_violation_bug :
    ((blocksOf (generate_timeline prefsDefault [taskC3] [busyMorning, busyLate] 0)).any
      fun b => decide
        (((dateOf b.start : ℤ) : ℚ) * 1440 +
          ((prefsDefault.end_hour * 60 + prefsDefault.end_minute : ℕ) : ℚ) <
            b.endT)) = true := by
  with_unfolding_all decide

set_option maxRecDepth 40000 in
/-- C4 — code bug.  The source reads `datetime.now(tz=tz.UTC)` inside
`generate_timeline` (line 80) and inside `priority_score` (line 144) instead
of taking "today" as a parameter.  Our embedding is forced to expose that
ambient read as the explicit argument `now`; holding the actual inputs
(tasks, busy blocks, preferences) fixed while the clock advances two days
changes the output — with the clock ambient, two runs on identical inputs
differ, refuting the claimed determinism. -/
theorem c4_clock_dependence_bug :
    generate_timeline prefsDefault [taskC4] [] 0 ≠
      generate_timeline prefsDefault [taskC4] [] 2880 := by
  with_unfolding_all decide

set_option maxRecDepth 40000 in
/-- C5 — counterexample to the claim as stated.  The claim's formula scores a
*present* weight of 0 as `0*3 = 0`, but the source computes `(task.weight or
10) * 3`, where `0` is falsy: the zero-weight task scores `10*3 = 30` and is
ranked **above** a weight-5 task, while the claim's formula ranks it below. -/
theorem c5_counterexample :
    prioritize_tasks 0 [taskZeroWeight, taskSmallWeight] ≠
      prioritize_tasks_claim 0 [taskZeroWeight, taskSmallWeight] := by
  with_unfolding_all decide

set_option maxRecDepth 40000 in
/-- Witness for C5 (amended), at the two-task list of the counterexample
(both schedulable) and the concrete score value 39.1 = 391/10. -/
theorem c5_prioritizer_witness :
    (∀ t ∈ [taskZeroWeight, taskSmallWeight], schedulableTask t = true) ∧
    (prioritize_tasks 0 [taskZeroWeight, taskSmallWeight]).Pairwise
      (fun a b => priority_score_amended 0 b ≤ priority_score_amended 0 a) ∧
    (prioritize_tasks 0 [taskZeroWeight, taskSmallWeight]).filter
        (fun t => decide (priority_score_amended 0 t = 391 / 10)) =
      [taskZeroWeight, taskSmallWeight].filter
        fun t => decide (priority_score_amended 0 t = 391 / 10) :=
  ⟨by with_unfolding_all decide,
    (c5_prioritizer (by with_unfolding_all decide)).1,
    (c5_prioritizer (by with_unfolding_all decide)).2 (391 / 10)⟩

set_option maxRecDepth 40000 in
/-- C6 — code bug.  `generate_timeline` calls `parser.isoparse(task.due_date)`
at `core.py` line 79 with **no** try/except (unlike every other parse site in
the module): a schedulable task whose due-date string does not parse raises
and aborts the whole run instead of being surfaced as a warning. -/
theorem c6_unparseable_due_aborts_bug :
    generate_timeline prefsDefault [taskBadDue] [] 0 =
      Except.error "isoparse failed on due_date" := by
  with_unfolding_all decide

set_option maxRecDepth 40000 in
/-- C7 — counterexample to the claim as stated ("for every value of
minStudyBlockMinutes").  With `maxHoursPerDay = 0.3` and
`minStudyBlockMinutes = 6` (0.1 h), the headroom 0.3 is **not** below the
preference threshold, yet the source's hardcoded `available_today < 0.5`
guard skips every day and `_schedule_task` places nothing — although the slot
finder would succeed for the 0.3-hour session (slot 09:00–09:18). -/
theorem c7_counterexample :
    schedule_task prefsTinyDay taskC7 2 5 0 [] [] = [] ∧
      ¬(prefsTinyDay.max_hours_per_day - get_day_hours_used 0 [] <
        (prefsTinyDay.min_study_block_minutes : ℚ) / 60) ∧
      find_free_slot prefsTinyDay 0 (3 / 10) [] [] = some (540, 558) := by
  refine ⟨?_, ?_, ?_⟩ <;> with_unfolding_all decide

set_option maxRecDepth 40000 in
/-- Witness for C7 (amended): one pre-existing 0.75-hour block on day 0
against a 1-hour daily budget leaves 0.25 h < 0.5 h headroom, and the step
is a pure one-day skip. -/
theorem c7_skip_step_witness :
    ((0 : ℕ) < 1 ∧ (0.5 : ℚ) < 2 ∧ (0 : ℕ) ≤ 3) ∧
    prefsOneHour.max_hours_per_day -
        get_day_hours_used (0 + ((0 : ℕ) : ℚ) * 1440)
          ([blockThreeQuarters] ++ []) < 0.5 ∧
    scheduleGo prefsOneHour taskPlain [] [blockThreeQuarters] 1 1 1 3 0
        4 [] 0 2 0 =
      scheduleGo prefsOneHour taskPlain [] [blockThreeQuarters] 1 1 1 3 0
        3 [] 0 2 1 :=
  ⟨⟨by decide, by norm_num, by decide⟩, by with_unfolding_all decide,
    c7_skip_step ⟨by decide, by norm_num, by decide⟩
      (by with_unfolding_all decide)⟩

set_option maxRecDepth 40000 in
/-- C8 — counterexample to the claim as stated ("regardless of the two tasks'
effort hours").  `taskSoon` is due today with weight 10 and effort 1;
`taskHuge` is due in 100 days with the same weight but effort 2000.  The
effort term `effortHours*0.5*0.1` contributes 100 points to `taskHuge`, which
therefore outscores the far more urgent `taskSoon`. -/
theorem c8_counterexample :
    taskSoon.due_date = DueDate.valid 720 ∧
    taskHuge.due_date = DueDate.valid (100 * 1440 + 720) ∧
    taskSoon.weight = taskHuge.weight ∧
    priority_score 0 taskSoon < priority_score 0 taskHuge :=
  ⟨rfl, rfl, rfl, by with_unfolding_all decide⟩

set_option maxRecDepth 40000 in
/-- Witness for C8 (amended): `taskPlain` (due day 3, effective weight 10,
effective effort 2) versus `taskC2` (due day 5, same effective weight and
effort). -/
theorem c8_monotone_priority_witness :
    taskPlain.due_date = DueDate.valid (3 * 1440) ∧
    taskC2.due_date = DueDate.valid (5 * 1440) ∧
    ((3 * 1440 : ℚ) < 5 * 1440) ∧
    effectiveWeight taskC2 ≤ effectiveWeight taskPlain ∧
    effectiveEffort taskC2 ≤ effectiveEffort taskPlain ∧
    priority_score 0 taskC2 ≤ priority_score 0 taskPlain :=
  ⟨rfl, rfl, by norm_num, by with_unfolding_all decide,
    by with_unfolding_all decide,
    c8_monotone_priority rfl rfl (by norm_num) (by with_unfolding_all decide)
      (by with_unfolding_all decide)⟩

set_option maxRecDepth 40000 in
/-- C9 — code bug.  No validation of `UserPreferences` exists anywhere
(`app/models.py` declares plain fields with defaults; `TimelineEngine.__init__`
only splits the time strings): with the invalid `min_study_block_minutes = 0`
the engine neither raises a configuration error nor returns empty — it
happily produces ScheduleBlocks. -/
theorem c9_no_validation_bug :
    prefsZeroMin.min_study_block_minutes = 0 ∧
    blocksOf (generate_timeline prefsZeroMin [taskC2] [] 0) ≠ [] :=
  ⟨rfl, by with_unfolding_all decide⟩

set_option maxRecDepth 40000 in
/-- Witness for C10: the concrete 0.4-hour task `taskTinyEffort` in a fresh
run state gets no blocks, is counted in `tasks_scheduled`, and is added to
neither list. -/
theorem c10_small_effort_counted_scheduled_witness :
    taskTinyEffort.due_date = DueDate.valid (3 * 1440) ∧
    dictGet stateTiny.remaining_effort (taskKey taskTinyEffort) 0 = 2 / 5 ∧
    ((0 : ℚ) < 2 / 5 ∧ (2 / 5 : ℚ) ≤ 0.5) ∧
    dateOf (0 : ℚ) ≤ dateOf ((3 * 1440 : ℚ)) ∧
    run_task prefsDefault [] 0 stateTiny taskTinyEffort =
      Except.ok { stateTiny with
        remaining_effort :=
          dictSet stateTiny.remaining_effort (taskKey taskTinyEffort) (2 / 5)
        blocks := stateTiny.blocks ++ []
        total_hours := stateTiny.total_hours + 0
        tasks_scheduled := stateTiny.tasks_scheduled + 1 } :=
  ⟨rfl, by with_unfolding_all decide, ⟨by norm_num, by norm_num⟩,
    by with_unfolding_all decide,
    c10_small_effort_counted_scheduled rfl (by with_unfolding_all decide)
      (by norm_num) (by norm_num) (by with_unfolding_all decide)⟩

end SmartPlanner
